import Mathlib

/-!
Decoding of HCL2 `build` blocks (`hcl2template/types.build.go`).

A shallow embedding of `Parser.decodeBuildConfig` and of the data it works on,
followed by the properties of the decoder that the specification states.

The function under study calls into code that is not part of the file:
the HCL library (`gohcl.DecodeBody`, `Body.Content`, `hclsyntax.ValidIdentifier`,
`Diagnostics.HasErrors`) and sibling files of the package (`sourceRefFromString`,
`NoSource`, `decodeBuildSource`, `decodeProvisioner`, `decodePostProcessor`).
`HasErrors` is embedded directly; every other collaborator is a field of the
`Parser` record, so each theorem holds for all of their possible behaviours.
-/

namespace Hcl2template

/-! ## Data model -/

/-- Severity of a diagnostic, `hcl.DiagnosticSeverity` (`DiagInvalid` is the zero value). -/
inductive DiagnosticSeverity
  | DiagInvalid
  | DiagError
  | DiagWarning
  deriving DecidableEq, Repr

/-- Position in a source file, `hcl.Pos`. -/
structure Pos where
  Line : Int
  Column : Int
  Byte : Int
  deriving DecidableEq, Repr

/-- Range of a source file, `hcl.Range`. -/
structure Range where
  Filename : String
  Start : Pos
  End : Pos
  deriving DecidableEq, Repr

/-- User-facing message, `hcl.Diagnostic` (the fields `Subject` and `Context` are
nullable pointers in the source). -/
structure Diagnostic where
  Severity : DiagnosticSeverity
  Summary : String
  Detail : String
  Subject : Option Range
  Context : Option Range
  deriving DecidableEq, Repr

/-- List of diagnostics, `hcl.Diagnostics`. -/
abbrev Diagnostics := List Diagnostic

/-- Embedding of `hcl.Diagnostics.HasErrors`: true iff some element has severity `DiagError`. -/
def Diagnostics.HasErrors (diags : Diagnostics) : Bool :=
  diags.any (fun d => decide (d.Severity = DiagnosticSeverity.DiagError))

/-- Reference to a source, `SourceRef`: a (Type, Name) pair compared field by field
(`Type_` stands for the field `Type`, a reserved word here). -/
structure SourceRef where
  Type_ : String
  Name : String
  deriving DecidableEq, Repr

/-- Nested block of a body, `hcl.Block`; `β` is the type of (opaque) block bodies. -/
structure Block (β : Type) where
  Type_ : String
  Labels : List String
  Body : β
  DefRange : Range
  TypeRange : Range
  LabelRanges : List Range

/-- Header of a block type accepted by a schema, `hcl.BlockHeaderSchema`. -/
structure BlockHeaderSchema where
  Type_ : String
  LabelNames : List String
  deriving DecidableEq, Repr

/-- Attribute accepted by a schema, `hcl.AttributeSchema`. -/
structure AttributeSchema where
  Name : String
  Required : Bool
  deriving DecidableEq, Repr

/-- Schema a body is matched against, `hcl.BodySchema`. -/
structure BodySchema where
  Attributes : List AttributeSchema
  Blocks : List BlockHeaderSchema
  deriving DecidableEq, Repr

/-- Result of matching a body against a schema, `hcl.BodyContent`; only the matched
blocks are read by the decoder. -/
structure BodyContent (β : Type) where
  Blocks : List (Block β)

/-- Metadata handle `HCL2Ref`; `decodeBuildConfig` never assigns it, so it keeps its zero value. -/
abbrev HCL2Ref := Unit

/-- The struct `BuildBlock` of the source; `PB` and `PPB` are the types of the handles
`*ProvisionerBlock` and `*PostProcessorBlock`. -/
structure BuildBlock (PB PPB : Type) where
  Name : String
  Description : String
  Sources : List SourceRef
  ProvisionerBlocks : List PB
  PostProcessors : List PPB
  HCL2Ref : HCL2Ref

/-- The local struct `b` of `decodeBuildConfig`, the target of `gohcl.DecodeBody`. -/
structure DecodedBody (β : Type) where
  Name : String
  Description : String
  FromSources : List String
  Config : β

/-- The receiver `p` together with the collaborators of `decodeBuildConfig` that live
outside the file. -/
structure Parser (β PB PPB : Type) where
  /-- `gohcl.DecodeBody(body, nil, &b)`: the filled struct and the diagnostics. -/
  DecodeBody : β → DecodedBody β × Diagnostics
  /-- `body.Content(schema)`: the matched content and the diagnostics. -/
  Content : β → BodySchema → BodyContent β × Diagnostics
  /-- `hclsyntax.ValidIdentifier`. -/
  ValidIdentifier : String → Bool
  /-- `sourceRefFromString`. -/
  sourceRefFromString : String → SourceRef
  /-- The sentinel `NoSource`. -/
  NoSource : SourceRef
  /-- `p.decodeBuildSource`. -/
  decodeBuildSource : Block β → SourceRef × Diagnostics
  /-- `p.decodeProvisioner`. -/
  decodeProvisioner : Block β → PB × Diagnostics
  /-- `p.decodePostProcessor`. -/
  decodePostProcessor : Block β → PPB × Diagnostics

/-! ## Constants and schema -/

/-- The constant `buildFromLabel`. -/
def buildFromLabel : String := "from"

/-- The constant `buildSourceLabel` (declared in the file, not used by the decoder). -/
def buildSourceLabel : String := "source"

/-- The constant `buildProvisionerLabel`. -/
def buildProvisionerLabel : String := "provisioner"

/-- The constant `buildPostProcessorLabel`. -/
def buildPostProcessorLabel : String := "post-processor"

/-- Modelled from the spec: the package constant `sourceLabel`, declared outside this
file; the specification names the nested block type and the reference kind "source". -/
def sourceLabel : String := "source"

/-- The variable `buildSchema`. -/
def buildSchema : BodySchema :=
  { Attributes := []
    Blocks :=
      [ { Type_ := buildFromLabel, LabelNames := ["type"] },
        { Type_ := sourceLabel, LabelNames := ["reference"] },
        { Type_ := buildProvisionerLabel, LabelNames := ["type"] },
        { Type_ := buildPostProcessorLabel, LabelNames := ["type"] } ] }

/-! ## The decoder -/

section Decoder

variable {β PB PPB : Type}

/-- The zero value `&BuildBlock{}`. -/
def BuildBlock.empty : BuildBlock PB PPB :=
  { Name := "", Description := "", Sources := [], ProvisionerBlocks := [],
    PostProcessors := [], HCL2Ref := () }

/-- The condition of the `if` in the shorthand loop: the entry is rejected. -/
def invalidRef (p : Parser β PB PPB) (ref : SourceRef) : Bool :=
  decide (ref = p.NoSource) || !p.ValidIdentifier ref.Type_ || !p.ValidIdentifier ref.Name

/-- The diagnostic literal appended for a rejected shorthand entry. -/
def invalidSourceDiag (defRange : Range) : Diagnostic :=
  { Severity := DiagnosticSeverity.DiagError
    Summary := "Invalid " ++ sourceLabel ++ " reference"
    Detail := "A " ++ sourceLabel ++ " type is made of three parts that are" ++
      "split by a dot `.`; each part must start with a letter and " ++
      "may contain only letters, digits, underscores, and dashes." ++
      "A valid source reference looks like: `source.type.name`"
    Subject := some defRange
    Context := none }

/-- One iteration of `for _, buildFrom := range b.FromSources`. -/
def fromSourceStep (p : Parser β PB PPB) (defRange : Range)
    (st : BuildBlock PB PPB × Diagnostics) (buildFrom : String) :
    BuildBlock PB PPB × Diagnostics :=
  let ref := p.sourceRefFromString buildFrom
  if invalidRef p ref then
    (st.1, st.2 ++ [invalidSourceDiag defRange])
  else
    ({ st.1 with Sources := st.1.Sources ++ [ref] }, st.2)

/-- The loop `for _, buildFrom := range b.FromSources`. -/
def fromSourcesLoop (p : Parser β PB PPB) (defRange : Range)
    (st : BuildBlock PB PPB × Diagnostics) (fromSources : List String) :
    BuildBlock PB PPB × Diagnostics :=
  fromSources.foldl (fromSourceStep p defRange) st

/-- One iteration of `for _, block := range content.Blocks`: the `switch block.Type`. -/
def dispatchStep (p : Parser β PB PPB)
    (st : BuildBlock PB PPB × Diagnostics) (block : Block β) :
    BuildBlock PB PPB × Diagnostics :=
  if block.Type_ = sourceLabel then
    let r := p.decodeBuildSource block
    let diags := st.2 ++ r.2
    if Diagnostics.HasErrors r.2 then (st.1, diags)
    else ({ st.1 with Sources := st.1.Sources ++ [r.1] }, diags)
  else if block.Type_ = buildProvisionerLabel then
    let r := p.decodeProvisioner block
    let diags := st.2 ++ r.2
    if Diagnostics.HasErrors r.2 then (st.1, diags)
    else ({ st.1 with ProvisionerBlocks := st.1.ProvisionerBlocks ++ [r.1] }, diags)
  else if block.Type_ = buildPostProcessorLabel then
    let r := p.decodePostProcessor block
    let diags := st.2 ++ r.2
    if Diagnostics.HasErrors r.2 then (st.1, diags)
    else ({ st.1 with PostProcessors := st.1.PostProcessors ++ [r.1] }, diags)
  else st

/-- The loop `for _, block := range content.Blocks`. -/
def dispatchLoop (p : Parser β PB PPB)
    (st : BuildBlock PB PPB × Diagnostics) (blocks : List (Block β)) :
    BuildBlock PB PPB × Diagnostics :=
  blocks.foldl (dispatchStep p) st

/-- Embedding of `Parser.decodeBuildConfig`; `none` is the nil `*BuildBlock`. -/
def decodeBuildConfig (p : Parser β PB PPB) (block : Block β) :
    Option (BuildBlock PB PPB) × Diagnostics :=
  let build : BuildBlock PB PPB := BuildBlock.empty
  let r := p.DecodeBody block.Body
  let b := r.1
  let diags := r.2
  if Diagnostics.HasErrors diags then (none, diags)
  else
    let build := { build with Name := b.Name }
    let build := { build with Description := b.Description }
    let st := fromSourcesLoop p block.DefRange (build, diags) b.FromSources
    let c := p.Content b.Config buildSchema
    let diags := st.2 ++ c.2
    if Diagnostics.HasErrors diags then (none, diags)
    else
      let st := dispatchLoop p (st.1, diags) c.1.Blocks
      (some st.1, st.2)

/-! ## Vocabulary of the statements -/

/-- The shorthand entries that the shorthand loop rejects, in authored order. -/
def invalidEntries (p : Parser β PB PPB) (fromSources : List String) : List String :=
  fromSources.filter (fun s => invalidRef p (p.sourceRefFromString s))

/-- The references of the shorthand entries that the shorthand loop accepts, in authored order. -/
def shorthandRefs (p : Parser β PB PPB) (fromSources : List String) : List SourceRef :=
  (fromSources.filter (fun s => !invalidRef p (p.sourceRefFromString s))).map
    p.sourceRefFromString

/-- The results of `decodeBuildSource` on the `source` blocks whose delegate diagnostics
hold no error, in authored order. -/
def sourceResults (p : Parser β PB PPB) (blocks : List (Block β)) : List SourceRef :=
  ((blocks.filter (fun b => decide (b.Type_ = sourceLabel))).filter
    (fun b => !Diagnostics.HasErrors (p.decodeBuildSource b).2)).map
    (fun b => (p.decodeBuildSource b).1)

/-- The results of `decodeProvisioner` on the `provisioner` blocks whose delegate
diagnostics hold no error, in authored order. -/
def provisionerResults (p : Parser β PB PPB) (blocks : List (Block β)) : List PB :=
  ((blocks.filter (fun b => decide (b.Type_ = buildProvisionerLabel))).filter
    (fun b => !Diagnostics.HasErrors (p.decodeProvisioner b).2)).map
    (fun b => (p.decodeProvisioner b).1)

/-- The results of `decodePostProcessor` on the `post-processor` blocks whose delegate
diagnostics hold no error, in authored order. -/
def postProcessorResults (p : Parser β PB PPB) (blocks : List (Block β)) : List PPB :=
  ((blocks.filter (fun b => decide (b.Type_ = buildPostProcessorLabel))).filter
    (fun b => !Diagnostics.HasErrors (p.decodePostProcessor b).2)).map
    (fun b => (p.decodePostProcessor b).1)

/-- The diagnostics of the delegate that the dispatch loop calls on a block; a block of
any other type has no delegate and no diagnostics. -/
def delegateDiags (p : Parser β PB PPB) (b : Block β) : Diagnostics :=
  if b.Type_ = sourceLabel then (p.decodeBuildSource b).2
  else if b.Type_ = buildProvisionerLabel then (p.decodeProvisioner b).2
  else if b.Type_ = buildPostProcessorLabel then (p.decodePostProcessor b).2
  else []

/-- The delegate diagnostics of a list of blocks, concatenated in authored order. -/
def dispatchDiags (p : Parser β PB PPB) : List (Block β) → Diagnostics
  | [] => []
  | b :: rest => delegateDiags p b ++ dispatchDiags p rest

/-- The struct filled by the attribute decode of a build block. -/
def decoded (p : Parser β PB PPB) (block : Block β) : DecodedBody β :=
  (p.DecodeBody block.Body).1

/-- The diagnostics of the attribute decode of a build block. -/
def attrDiags (p : Parser β PB PPB) (block : Block β) : Diagnostics :=
  (p.DecodeBody block.Body).2

/-- The diagnostics that the shorthand loop itself emits on a build block: the loop is
run from an empty build and an empty diagnostics list. -/
def refDiags (p : Parser β PB PPB) (block : Block β) : Diagnostics :=
  (fromSourcesLoop p block.DefRange (BuildBlock.empty, []) (decoded p block).FromSources).2

/-- The diagnostics of matching the residual body against `buildSchema`. -/
def schemaDiags (p : Parser β PB PPB) (block : Block β) : Diagnostics :=
  (p.Content (decoded p block).Config buildSchema).2

/-- The nested blocks returned by matching the residual body against `buildSchema`. -/
def matchedBlocks (p : Parser β PB PPB) (block : Block β) : List (Block β) :=
  (p.Content (decoded p block).Config buildSchema).1.Blocks

/-- A reference passes the test of the shorthand loop: it differs from `NoSource` and
both of its parts are valid identifiers. -/
abbrev WellFormed (p : Parser β PB PPB) (r : SourceRef) : Prop :=
  r ≠ p.NoSource ∧ p.ValidIdentifier r.Type_ = true ∧ p.ValidIdentifier r.Name = true

/-- The block types that `buildSchema` declares. -/
def schemaTypes : List String :=
  buildSchema.Blocks.map (fun h => h.Type_)

/-- The parser `p` with the matched blocks of every body replaced by `blocks`; the
diagnostics of the match and all other collaborators are those of `p`. -/
def withMatchedBlocks (p : Parser β PB PPB) (blocks : List (Block β)) : Parser β PB PPB :=
  { p with Content := fun body schema => ({ Blocks := blocks }, (p.Content body schema).2) }

end Decoder

/-! ## A concrete parser

A small instance of the collaborators, used to evaluate the decoder on concrete build
blocks. -/

/-- Body of a block as authored: whether `name` holds a string, the three attributes and
the type and labels of each nested block. -/
structure ExampleBody where
  nameIsString : Bool
  name : String
  description : String
  sources : List String
  blocks : List (String × List String)

/-- A range on the given line of the example file. -/
def exampleRange (line : Int) : Range :=
  { Filename := "build.pkr.hcl", Start := ⟨line, 1, 0⟩, End := ⟨line, 6, 0⟩ }

/-- An error diagnostic with the given summary and no location. -/
def exampleError (summary : String) : Diagnostic :=
  { Severity := DiagnosticSeverity.DiagError, Summary := summary, Detail := "",
    Subject := none, Context := none }

/-- ASCII letters. -/
def exampleIsLetter (c : Char) : Bool :=
  ('a' ≤ c && c ≤ 'z') || ('A' ≤ c && c ≤ 'Z')

/-- Identifier check of the example: a letter followed by letters, digits, `_` or `-`. -/
def exampleValidIdentifier (s : String) : Bool :=
  match s.data with
  | [] => false
  | c :: cs =>
    exampleIsLetter c &&
      cs.all (fun d => exampleIsLetter d || ('0' ≤ d && d ≤ '9') || d = '_' || d = '-')

/-- Splitting of a character list at every dot. -/
def exampleSplitDots : List Char → List (List Char)
  | [] => [[]]
  | c :: cs =>
    if c = '.' then [] :: exampleSplitDots cs
    else
      match exampleSplitDots cs with
      | [] => [[c]]
      | w :: ws => (c :: w) :: ws

/-- The sentinel of the example: the zero `SourceRef`. -/
def exampleNoSource : SourceRef := { Type_ := "", Name := "" }

/-- Shorthand parser of the example: `type.name`, or `source.type.name`. -/
def exampleSourceRefFromString (s : String) : SourceRef :=
  match exampleSplitDots s.data with
  | [t, n] => { Type_ := String.mk t, Name := String.mk n }
  | [_, t, n] => { Type_ := String.mk t, Name := String.mk n }
  | _ => exampleNoSource

/-- Attribute decode of the example: a non-string `name` is an error. -/
def exampleDecodeBody (body : ExampleBody) : DecodedBody ExampleBody × Diagnostics :=
  if body.nameIsString then
    ({ Name := body.name, Description := body.description, FromSources := body.sources,
       Config := body }, [])
  else
    ({ Name := "", Description := "", FromSources := [], Config := body },
      [exampleError "Incorrect attribute value type"])

/-- The nested block of the example with the given type and labels, on the given line. -/
def exampleBlock (line : Int) (ty : String) (labels : List String) : Block ExampleBody :=
  { Type_ := ty, Labels := labels,
    Body := { nameIsString := true, name := "", description := "", sources := [], blocks := [] },
    DefRange := exampleRange line, TypeRange := exampleRange line, LabelRanges := [] }

/-- Schema match of the example, after hcl: a nested block whose type the schema declares
is returned, any other one is flagged with the error "Unsupported block type". -/
def exampleContent (body : ExampleBody) (schema : BodySchema) :
    BodyContent ExampleBody × Diagnostics :=
  ({ Blocks := (body.blocks.filter
        (fun tl => schema.Blocks.any (fun h => decide (h.Type_ = tl.1)))).map
        (fun tl => exampleBlock 2 tl.1 tl.2) },
    (body.blocks.filter
        (fun tl => !schema.Blocks.any (fun h => decide (h.Type_ = tl.1)))).map
        (fun _ => exampleError "Unsupported block type"))

/-- Delegate of the example: the single label must be a valid identifier. -/
def exampleDelegate (what : String) (block : Block ExampleBody) : String × Diagnostics :=
  match block.Labels with
  | [l] => if exampleValidIdentifier l then (l, []) else ("", [exampleError what])
  | _ => ("", [exampleError what])

/-- Source delegate of the example: the single label must parse to a reference. -/
def exampleDecodeBuildSource (block : Block ExampleBody) : SourceRef × Diagnostics :=
  match block.Labels with
  | [l] =>
    if exampleSourceRefFromString l = exampleNoSource then
      (exampleNoSource, [exampleError "Unknown source"])
    else (exampleSourceRefFromString l, [])
  | _ => (exampleNoSource, [exampleError "Unknown source"])

/-- The parser of the example; provisioner and post-processor handles are strings. -/
def exampleParser : Parser ExampleBody String String :=
  { DecodeBody := exampleDecodeBody
    Content := exampleContent
    ValidIdentifier := exampleValidIdentifier
    sourceRefFromString := exampleSourceRefFromString
    NoSource := exampleNoSource
    decodeBuildSource := exampleDecodeBuildSource
    decodeProvisioner := exampleDelegate "Unknown provisioner type"
    decodePostProcessor := exampleDelegate "Unknown post-processor type" }

/-- A build block of the example with the given body. -/
def exampleBuild (body : ExampleBody) : Block ExampleBody :=
  { Type_ := "build", Labels := [], Body := body, DefRange := exampleRange 1,
    TypeRange := exampleRange 1, LabelRanges := [] }

/-- A build block without malformed entries. -/
def goodBuild : Block ExampleBody :=
  exampleBuild
    { nameIsString := true, name := "web", description := "images",
      sources := ["source.aws-ami.web", "docker.db"],
      blocks := [("source", ["null.x"]), ("provisioner", ["shell"]),
        ("post-processor", ["manifest"]), ("provisioner", ["file"])] }

/-- A build block with one invalid shorthand entry among valid ones. -/
def oneBadSourceBuild : Block ExampleBody :=
  exampleBuild
    { nameIsString := true, name := "web", description := "",
      sources := ["source.aws-ami.web", "bad type.name", "docker.db"],
      blocks := [("provisioner", ["shell"])] }

/-- A build block, valid otherwise, with a nested block of a type outside the schema. -/
def unknownBlockBuild : Block ExampleBody :=
  exampleBuild
    { nameIsString := true, name := "web", description := "",
      sources := ["source.aws-ami.web"],
      blocks := [("provisioner", ["shell"]), ("unknown", ["x"])] }

/-- A build block whose `name` attribute holds a non-string value. -/
def badNameBuild : Block ExampleBody :=
  exampleBuild
    { nameIsString := false, name := "", description := "",
      sources := ["bad type.name"], blocks := [("provisioner", ["shell"])] }

/-- A build block in which the delegates of two nested blocks fail. -/
def failingDelegateBuild : Block ExampleBody :=
  exampleBuild
    { nameIsString := true, name := "web", description := "",
      sources := ["docker.db"],
      blocks := [("provisioner", ["bad type"]), ("from", ["x"]), ("provisioner", ["shell"]),
        ("source", ["nodots"]), ("post-processor", ["manifest"])] }

section Decoder

variable {β PB PPB : Type}

/-! ## The two loops in closed form -/

theorem sourceLabel_ne_provisioner : sourceLabel ≠ buildProvisionerLabel := by decide

theorem sourceLabel_ne_postProcessor : sourceLabel ≠ buildPostProcessorLabel := by decide

theorem provisioner_ne_postProcessor : buildProvisionerLabel ≠ buildPostProcessorLabel := by
  decide

theorem hasErrors_append (xs ys : Diagnostics) :
    Diagnostics.HasErrors (xs ++ ys) = (Diagnostics.HasErrors xs || Diagnostics.HasErrors ys) := by
  simp [Diagnostics.HasErrors]

theorem hasErrors_iff (xs : Diagnostics) :
    Diagnostics.HasErrors xs = true ↔ ∃ d ∈ xs, d.Severity = DiagnosticSeverity.DiagError := by
  simp [Diagnostics.HasErrors]

theorem fromSourcesLoop_eq (p : Parser β PB PPB) (defRange : Range)
    (fromSources : List String) (st : BuildBlock PB PPB × Diagnostics) :
    fromSourcesLoop p defRange st fromSources =
      ({ st.1 with Sources := st.1.Sources ++ shorthandRefs p fromSources },
        st.2 ++ (invalidEntries p fromSources).map (fun _ => invalidSourceDiag defRange)) := by
  induction fromSources generalizing st with
  | nil =>
    obtain ⟨⟨n, d, s, pb, ppb, h⟩, ds⟩ := st
    simp [fromSourcesLoop, shorthandRefs, invalidEntries]
  | cons s rest ih =>
    have step : fromSourcesLoop p defRange st (s :: rest) =
        fromSourcesLoop p defRange (fromSourceStep p defRange st s) rest := rfl
    rw [step, ih]
    by_cases hv : invalidRef p (p.sourceRefFromString s) = true
    · simp [fromSourceStep, shorthandRefs, invalidEntries, hv]
    · simp [fromSourceStep, shorthandRefs, invalidEntries, hv]

theorem dispatchLoop_eq (p : Parser β PB PPB) (blocks : List (Block β))
    (st : BuildBlock PB PPB × Diagnostics) :
    dispatchLoop p st blocks =
      ({ st.1 with
          Sources := st.1.Sources ++ sourceResults p blocks
          ProvisionerBlocks := st.1.ProvisionerBlocks ++ provisionerResults p blocks
          PostProcessors := st.1.PostProcessors ++ postProcessorResults p blocks },
        st.2 ++ dispatchDiags p blocks) := by
  induction blocks generalizing st with
  | nil =>
    obtain ⟨⟨n, d, s, pb, ppb, h⟩, ds⟩ := st
    simp [dispatchLoop, sourceResults, provisionerResults, postProcessorResults, dispatchDiags]
  | cons b rest ih =>
    have step : dispatchLoop p st (b :: rest) = dispatchLoop p (dispatchStep p st b) rest := rfl
    have e1 := sourceLabel_ne_provisioner
    have e2 := sourceLabel_ne_postProcessor
    have e3 := provisioner_ne_postProcessor
    have e4 := e1.symm
    have e5 := e2.symm
    have e6 := e3.symm
    rw [step, ih]
    by_cases h1 : b.Type_ = sourceLabel
    · by_cases he : Diagnostics.HasErrors (p.decodeBuildSource b).2 = true
      · simp [dispatchStep, sourceResults, provisionerResults, postProcessorResults,
          dispatchDiags, delegateDiags, h1, he, e1, e2, e3, e4, e5, e6, List.filter_cons]
      · simp [dispatchStep, sourceResults, provisionerResults, postProcessorResults,
          dispatchDiags, delegateDiags, h1, he, e1, e2, e3, e4, e5, e6, List.filter_cons]
    · by_cases h2 : b.Type_ = buildProvisionerLabel
      · by_cases he : Diagnostics.HasErrors (p.decodeProvisioner b).2 = true
        · simp [dispatchStep, sourceResults, provisionerResults, postProcessorResults,
            dispatchDiags, delegateDiags, h2, he, e1, e2, e3, e4, e5, e6, List.filter_cons]
        · simp [dispatchStep, sourceResults, provisionerResults, postProcessorResults,
            dispatchDiags, delegateDiags, h2, he, e1, e2, e3, e4, e5, e6, List.filter_cons]
      · by_cases h3 : b.Type_ = buildPostProcessorLabel
        · by_cases he : Diagnostics.HasErrors (p.decodePostProcessor b).2 = true
          · simp [dispatchStep, sourceResults, provisionerResults, postProcessorResults,
              dispatchDiags, delegateDiags, h3, he, e1, e2, e3, e4, e5, e6, List.filter_cons]
          · simp [dispatchStep, sourceResults, provisionerResults, postProcessorResults,
              dispatchDiags, delegateDiags, h3, he, e1, e2, e3, e4, e5, e6, List.filter_cons]
        · simp [dispatchStep, sourceResults, provisionerResults, postProcessorResults,
            dispatchDiags, delegateDiags, h1, h2, h3, List.filter_cons]

theorem refDiags_eq (p : Parser β PB PPB) (block : Block β) :
    refDiags p block =
      (invalidEntries p (decoded p block).FromSources).map
        (fun _ => invalidSourceDiag block.DefRange) := by
  simp [refDiags, fromSourcesLoop_eq]

theorem decodeBuildConfig_eq (p : Parser β PB PPB) (block : Block β) :
    decodeBuildConfig p block =
      if Diagnostics.HasErrors (attrDiags p block) then (none, attrDiags p block)
      else if Diagnostics.HasErrors (attrDiags p block ++ refDiags p block ++ schemaDiags p block)
      then (none, attrDiags p block ++ refDiags p block ++ schemaDiags p block)
      else
        (some
          { Name := (decoded p block).Name
            Description := (decoded p block).Description
            Sources := shorthandRefs p (decoded p block).FromSources ++
              sourceResults p (matchedBlocks p block)
            ProvisionerBlocks := provisionerResults p (matchedBlocks p block)
            PostProcessors := postProcessorResults p (matchedBlocks p block)
            HCL2Ref := () },
          attrDiags p block ++ refDiags p block ++ schemaDiags p block ++
            dispatchDiags p (matchedBlocks p block)) := by
  simp only [decodeBuildConfig, fromSourcesLoop_eq, dispatchLoop_eq, refDiags_eq, attrDiags,
    decoded, schemaDiags, matchedBlocks, BuildBlock.empty, List.nil_append]

theorem hasErrors_eq_false_iff (xs : Diagnostics) :
    Diagnostics.HasErrors xs = false ↔ ∀ d ∈ xs, d.Severity ≠ DiagnosticSeverity.DiagError := by
  simp [Diagnostics.HasErrors]

theorem invalidEntries_eq_nil_iff (p : Parser β PB PPB) (l : List String) :
    invalidEntries p l = [] ↔ ∀ s ∈ l, invalidRef p (p.sourceRefFromString s) = false := by
  simp [invalidEntries, List.filter_eq_nil_iff]

theorem refDiags_hasErrors_iff (p : Parser β PB PPB) (block : Block β) :
    Diagnostics.HasErrors (refDiags p block) = true ↔
      ∃ s ∈ (decoded p block).FromSources, invalidRef p (p.sourceRefFromString s) = true := by
  rw [refDiags_eq, hasErrors_iff]
  constructor
  · rintro ⟨d, hd, -⟩
    obtain ⟨s, hs, -⟩ := List.mem_map.1 hd
    have hm := List.mem_filter.1 hs
    exact ⟨s, hm.1, hm.2⟩
  · rintro ⟨s, hs, hi⟩
    exact ⟨invalidSourceDiag block.DefRange,
      List.mem_map.2 ⟨s, List.mem_filter.2 ⟨hs, hi⟩, rfl⟩, rfl⟩

theorem refDiags_eq_nil (p : Parser β PB PPB) (block : Block β)
    (h : ∀ s ∈ (decoded p block).FromSources, invalidRef p (p.sourceRefFromString s) = false) :
    refDiags p block = [] := by
  rw [refDiags_eq, (invalidEntries_eq_nil_iff p _).2 h]
  rfl

theorem shorthandRefs_of_valid (p : Parser β PB PPB) (l : List String)
    (h : ∀ s ∈ l, invalidRef p (p.sourceRefFromString s) = false) :
    shorthandRefs p l = l.map p.sourceRefFromString := by
  have hf : l.filter (fun s => !invalidRef p (p.sourceRefFromString s)) = l := by
    rw [List.filter_eq_self]
    intro s hs
    simp [h s hs]
  simp [shorthandRefs, hf]

theorem wellFormed_of_not_invalid (p : Parser β PB PPB) (r : SourceRef)
    (h : invalidRef p r = false) : WellFormed p r := by
  simpa [invalidRef, WellFormed, and_assoc] using h

theorem delegateDiags_mem_dispatchDiags (p : Parser β PB PPB) (blocks : List (Block β))
    (d : Diagnostic) :
    d ∈ dispatchDiags p blocks ↔ ∃ b ∈ blocks, d ∈ delegateDiags p b := by
  induction blocks with
  | nil => simp [dispatchDiags]
  | cons b rest ih => simp [dispatchDiags, ih]

theorem dispatchDiags_hasErrors_false (p : Parser β PB PPB) (blocks : List (Block β))
    (h : ∀ b ∈ blocks, Diagnostics.HasErrors (delegateDiags p b) = false) :
    Diagnostics.HasErrors (dispatchDiags p blocks) = false := by
  rw [hasErrors_eq_false_iff]
  intro d hd
  obtain ⟨b, hb, hdb⟩ := (delegateDiags_mem_dispatchDiags p blocks d).1 hd
  exact (hasErrors_eq_false_iff _).1 (h b hb) d hdb

theorem sourceResults_of_ok (p : Parser β PB PPB) (blocks : List (Block β))
    (h : ∀ b ∈ blocks, Diagnostics.HasErrors (delegateDiags p b) = false) :
    sourceResults p blocks =
      (blocks.filter (fun b => decide (b.Type_ = sourceLabel))).map
        (fun b => (p.decodeBuildSource b).1) := by
  unfold sourceResults
  congr 1
  rw [List.filter_eq_self]
  intro b hb
  have hb2 := List.mem_filter.1 hb
  have ht : b.Type_ = sourceLabel := by simpa using hb2.2
  have := h b hb2.1
  simp [delegateDiags, ht] at this
  simp [this]

theorem provisionerResults_of_ok (p : Parser β PB PPB) (blocks : List (Block β))
    (h : ∀ b ∈ blocks, Diagnostics.HasErrors (delegateDiags p b) = false) :
    provisionerResults p blocks =
      (blocks.filter (fun b => decide (b.Type_ = buildProvisionerLabel))).map
        (fun b => (p.decodeProvisioner b).1) := by
  unfold provisionerResults
  congr 1
  rw [List.filter_eq_self]
  intro b hb
  have hb2 := List.mem_filter.1 hb
  have ht : b.Type_ = buildProvisionerLabel := by simpa using hb2.2
  have e1 := sourceLabel_ne_provisioner.symm
  have := h b hb2.1
  simp [delegateDiags, ht, e1] at this
  simp [this]

theorem postProcessorResults_of_ok (p : Parser β PB PPB) (blocks : List (Block β))
    (h : ∀ b ∈ blocks, Diagnostics.HasErrors (delegateDiags p b) = false) :
    postProcessorResults p blocks =
      (blocks.filter (fun b => decide (b.Type_ = buildPostProcessorLabel))).map
        (fun b => (p.decodePostProcessor b).1) := by
  unfold postProcessorResults
  congr 1
  rw [List.filter_eq_self]
  intro b hb
  have hb2 := List.mem_filter.1 hb
  have ht : b.Type_ = buildPostProcessorLabel := by simpa using hb2.2
  have e1 := sourceLabel_ne_postProcessor.symm
  have e2 := provisioner_ne_postProcessor.symm
  have := h b hb2.1
  simp [delegateDiags, ht, e1, e2] at this
  simp [this]

theorem sourceResults_append (p : Parser β PB PPB) (l1 l2 : List (Block β)) :
    sourceResults p (l1 ++ l2) = sourceResults p l1 ++ sourceResults p l2 := by
  simp [sourceResults]

theorem provisionerResults_append (p : Parser β PB PPB) (l1 l2 : List (Block β)) :
    provisionerResults p (l1 ++ l2) = provisionerResults p l1 ++ provisionerResults p l2 := by
  simp [provisionerResults]

theorem postProcessorResults_append (p : Parser β PB PPB) (l1 l2 : List (Block β)) :
    postProcessorResults p (l1 ++ l2) =
      postProcessorResults p l1 ++ postProcessorResults p l2 := by
  simp [postProcessorResults]

theorem dispatchDiags_append (p : Parser β PB PPB) (l1 l2 : List (Block β)) :
    dispatchDiags p (l1 ++ l2) = dispatchDiags p l1 ++ dispatchDiags p l2 := by
  induction l1 with
  | nil => simp [dispatchDiags]
  | cons b rest ih => simp [dispatchDiags, ih]

/-- A block contributes to none of the three lists when its type is not dispatched or its
delegate reports an error. -/
theorem results_singleton_nil (p : Parser β PB PPB) (b : Block β)
    (h : (b.Type_ ≠ sourceLabel ∧ b.Type_ ≠ buildProvisionerLabel ∧
        b.Type_ ≠ buildPostProcessorLabel) ∨
      Diagnostics.HasErrors (delegateDiags p b) = true) :
    sourceResults p [b] = [] ∧ provisionerResults p [b] = [] ∧
      postProcessorResults p [b] = [] := by
  have e1 := sourceLabel_ne_provisioner
  have e2 := sourceLabel_ne_postProcessor
  have e3 := provisioner_ne_postProcessor
  have e4 := e1.symm
  have e5 := e2.symm
  have e6 := e3.symm
  rcases h with ⟨h1, h2, h3⟩ | h
  · simp [sourceResults, provisionerResults, postProcessorResults, h1, h2, h3]
  · by_cases h1 : b.Type_ = sourceLabel
    · simp [delegateDiags, h1] at h
      simp [sourceResults, provisionerResults, postProcessorResults, h1, h, e1, e2,
        List.filter_cons]
    · by_cases h2 : b.Type_ = buildProvisionerLabel
      · simp [delegateDiags, h2, e4] at h
        simp [sourceResults, provisionerResults, postProcessorResults, h2, h, e3, e4,
          List.filter_cons]
      · by_cases h3 : b.Type_ = buildPostProcessorLabel
        · simp [delegateDiags, h3, e5, e6] at h
          simp [sourceResults, provisionerResults, postProcessorResults, h3, h, e5, e6,
            List.filter_cons]
        · simp [sourceResults, provisionerResults, postProcessorResults, h1, h2, h3]

/-- Removing such a block from a block list leaves the three lists unchanged. -/
theorem results_remove (p : Parser β PB PPB) (l1 l2 : List (Block β)) (b : Block β)
    (h : (b.Type_ ≠ sourceLabel ∧ b.Type_ ≠ buildProvisionerLabel ∧
        b.Type_ ≠ buildPostProcessorLabel) ∨
      Diagnostics.HasErrors (delegateDiags p b) = true) :
    sourceResults p (l1 ++ b :: l2) = sourceResults p (l1 ++ l2) ∧
      provisionerResults p (l1 ++ b :: l2) = provisionerResults p (l1 ++ l2) ∧
      postProcessorResults p (l1 ++ b :: l2) = postProcessorResults p (l1 ++ l2) := by
  obtain ⟨r1, r2, r3⟩ := results_singleton_nil p b h
  have hsplit : l1 ++ b :: l2 = l1 ++ ([b] ++ l2) := rfl
  rw [hsplit]
  simp only [sourceResults_append, provisionerResults_append, postProcessorResults_append,
    r1, r2, r3, List.nil_append, and_self]

theorem from_not_dispatched :
    buildFromLabel ≠ sourceLabel ∧ buildFromLabel ≠ buildProvisionerLabel ∧
      buildFromLabel ≠ buildPostProcessorLabel := by
  decide

theorem decodeBuildConfig_of_ok (p : Parser β PB PPB) (block : Block β)
    (hattr : Diagnostics.HasErrors (attrDiags p block) = false)
    (hpre : Diagnostics.HasErrors
      (attrDiags p block ++ refDiags p block ++ schemaDiags p block) = false) :
    decodeBuildConfig p block =
      (some
        { Name := (decoded p block).Name
          Description := (decoded p block).Description
          Sources := shorthandRefs p (decoded p block).FromSources ++
            sourceResults p (matchedBlocks p block)
          ProvisionerBlocks := provisionerResults p (matchedBlocks p block)
          PostProcessors := postProcessorResults p (matchedBlocks p block)
          HCL2Ref := () },
        attrDiags p block ++ refDiags p block ++ schemaDiags p block ++
          dispatchDiags p (matchedBlocks p block)) := by
  rw [decodeBuildConfig_eq]
  simp only [hattr, hpre, Bool.false_eq_true, if_false]

theorem decodeBuildConfig_of_pre_error (p : Parser β PB PPB) (block : Block β)
    (hattr : Diagnostics.HasErrors (attrDiags p block) = false)
    (hpre : Diagnostics.HasErrors
      (attrDiags p block ++ refDiags p block ++ schemaDiags p block) = true) :
    decodeBuildConfig p block =
      (none, attrDiags p block ++ refDiags p block ++ schemaDiags p block) := by
  rw [decodeBuildConfig_eq]
  simp only [hattr, hpre, Bool.false_eq_true, if_false, if_true]

theorem decodeBuildConfig_of_attr_error (p : Parser β PB PPB) (block : Block β)
    (hattr : Diagnostics.HasErrors (attrDiags p block) = true) :
    decodeBuildConfig p block = (none, attrDiags p block) := by
  rw [decodeBuildConfig_eq]
  simp only [hattr, if_true]

theorem invalid_none_of_refDiags_ok (p : Parser β PB PPB) (block : Block β)
    (href : Diagnostics.HasErrors (refDiags p block) = false) :
    ∀ s ∈ (decoded p block).FromSources,
      invalidRef p (p.sourceRefFromString s) = false := by
  intro s hs
  by_contra hc
  have ht : invalidRef p (p.sourceRefFromString s) = true := by simpa using hc
  have := (refDiags_hasErrors_iff p block).2 ⟨s, hs, ht⟩
  rw [href] at this
  exact Bool.false_ne_true this

theorem withMatchedBlocks_eq (p : Parser β PB PPB) (l : List (Block β)) (block : Block β) :
    attrDiags (withMatchedBlocks p l) block = attrDiags p block ∧
      decoded (withMatchedBlocks p l) block = decoded p block ∧
      refDiags (withMatchedBlocks p l) block = refDiags p block ∧
      schemaDiags (withMatchedBlocks p l) block = schemaDiags p block ∧
      matchedBlocks (withMatchedBlocks p l) block = l ∧
      (∀ fs, shorthandRefs (withMatchedBlocks p l) fs = shorthandRefs p fs) ∧
      (∀ bs, sourceResults (withMatchedBlocks p l) bs = sourceResults p bs) ∧
      (∀ bs, provisionerResults (withMatchedBlocks p l) bs = provisionerResults p bs) ∧
      (∀ bs, postProcessorResults (withMatchedBlocks p l) bs = postProcessorResults p bs) ∧
      ∀ bs, dispatchDiags (withMatchedBlocks p l) bs = dispatchDiags p bs := by
  refine ⟨rfl, rfl, rfl, rfl, rfl, fun _ => rfl, fun _ => rfl, fun _ => rfl, fun _ => rfl, ?_⟩
  intro bs
  induction bs with
  | nil => rfl
  | cons b rest ih =>
    show delegateDiags p b ++ dispatchDiags (withMatchedBlocks p l) rest = _
    rw [ih]
    rfl

theorem decodeBuildConfig_some_stages_ok (p : Parser β PB PPB) (block : Block β)
    (build : BuildBlock PB PPB) (h : (decodeBuildConfig p block).1 = some build) :
    Diagnostics.HasErrors (attrDiags p block) = false ∧
      Diagnostics.HasErrors (refDiags p block) = false ∧
      Diagnostics.HasErrors (schemaDiags p block) = false := by
  cases hattr : Diagnostics.HasErrors (attrDiags p block) with
  | true =>
    rw [decodeBuildConfig_of_attr_error p block hattr] at h
    exact absurd h (by simp)
  | false =>
    cases hpre : Diagnostics.HasErrors
        (attrDiags p block ++ refDiags p block ++ schemaDiags p block) with
    | true =>
      rw [decodeBuildConfig_of_pre_error p block hattr hpre] at h
      exact absurd h (by simp)
    | false =>
      rw [hasErrors_append, hasErrors_append, hattr] at hpre
      simp only [Bool.false_or, Bool.or_eq_false_iff] at hpre
      exact ⟨rfl, hpre.1, hpre.2⟩

theorem refDiags_eq_flatten (p : Parser β PB PPB) (defRange : Range) (l : List String) :
    (invalidEntries p l).map (fun _ => invalidSourceDiag defRange) =
      (l.map (fun s =>
        if invalidRef p (p.sourceRefFromString s) then [invalidSourceDiag defRange]
        else [])).flatten := by
  induction l with
  | nil => rfl
  | cons s rest ih =>
    by_cases hv : invalidRef p (p.sourceRefFromString s) = true
    · simp only [invalidEntries, List.filter_cons, hv, if_true, List.map_cons,
        List.flatten_cons] at ih ⊢
      rw [ih]
      rfl
    · simp only [invalidEntries, List.filter_cons, hv, if_false, List.map_cons,
        List.flatten_cons, Bool.false_eq_true] at ih ⊢
      rw [ih]
      rfl

theorem invalidSourceDiag_summary (defRange : Range) :
    (invalidSourceDiag defRange).Summary = "Invalid source reference" := by
  show ("Invalid " ++ sourceLabel ++ " reference" : String) = "Invalid source reference"
  decide

theorem countP_summary_refDiags (p : Parser β PB PPB) (block : Block β) :
    (refDiags p block).countP
        (fun d => decide (d.Summary = (invalidSourceDiag block.DefRange).Summary)) =
      (refDiags p block).length := by
  rw [List.countP_eq_length]
  intro d hd
  rw [refDiags_eq] at hd
  obtain ⟨s, -, rfl⟩ := List.mem_map.1 hd
  simp

theorem countP_eq_zero_of_forall_ne (xs : Diagnostics) (t : String)
    (h : ∀ d ∈ xs, d.Summary ≠ t) :
    xs.countP (fun d => decide (d.Summary = t)) = 0 := by
  rw [List.countP_eq_zero]
  intro d hd
  simpa using h d hd

theorem filter_errors_eq_nil (xs : Diagnostics) (h : Diagnostics.HasErrors xs = false) :
    xs.filter (fun d => decide (d.Severity = DiagnosticSeverity.DiagError)) = [] := by
  rw [List.filter_eq_nil_iff]
  intro d hd
  simpa using (hasErrors_eq_false_iff xs).1 h d hd

theorem not_mem_schemaTypes (t : String) (ht : t ∉ schemaTypes) :
    t ≠ sourceLabel ∧ t ≠ buildProvisionerLabel ∧ t ≠ buildPostProcessorLabel := by
  simp only [schemaTypes, buildSchema, List.map_cons, List.map_nil, List.mem_cons,
    List.mem_singleton, not_or] at ht
  exact ⟨ht.2.1, ht.2.2.1, ht.2.2.2.1⟩

/-- Removing all blocks of a type outside the schema leaves the three lists unchanged. -/
theorem results_filter_unknown (p : Parser β PB PPB) (l : List (Block β)) (t : String)
    (ht : t ∉ schemaTypes) :
    sourceResults p (l.filter (fun b => decide (b.Type_ ≠ t))) = sourceResults p l ∧
      provisionerResults p (l.filter (fun b => decide (b.Type_ ≠ t))) =
        provisionerResults p l ∧
      postProcessorResults p (l.filter (fun b => decide (b.Type_ ≠ t))) =
        postProcessorResults p l := by
  obtain ⟨t1, t2, t3⟩ := not_mem_schemaTypes t ht
  induction l with
  | nil => exact ⟨rfl, rfl, rfl⟩
  | cons b rest ih =>
    obtain ⟨i1, i2, i3⟩ := ih
    have hcons : b :: rest = [b] ++ rest := rfl
    by_cases hb : b.Type_ = t
    · obtain ⟨r1, r2, r3⟩ := results_singleton_nil p b
        (Or.inl ⟨hb ▸ t1, hb ▸ t2, hb ▸ t3⟩)
      have hf : (b :: rest).filter (fun b => decide (b.Type_ ≠ t)) =
          rest.filter (fun b => decide (b.Type_ ≠ t)) := by
        simp [List.filter_cons, hb]
      rw [hf, i1, i2, i3, hcons, sourceResults_append, provisionerResults_append,
        postProcessorResults_append, r1, r2, r3]
      exact ⟨rfl, rfl, rfl⟩
    · have hf : (b :: rest).filter (fun b => decide (b.Type_ ≠ t)) =
          [b] ++ rest.filter (fun b => decide (b.Type_ ≠ t)) := by
        simp [List.filter_cons, hb]
      rw [hf, hcons, sourceResults_append, provisionerResults_append,
        postProcessorResults_append, sourceResults_append, provisionerResults_append,
        postProcessorResults_append, i1, i2, i3]
      exact ⟨rfl, rfl, rfl⟩

theorem invalid_of_wellFormed (p : Parser β PB PPB) (l : List String)
    (h : ∀ s ∈ l, WellFormed p (p.sourceRefFromString s)) :
    ∀ s ∈ l, invalidRef p (p.sourceRefFromString s) = false := by
  intro s hs
  obtain ⟨h1, h2, h3⟩ := h s hs
  simp [invalidRef, h1, h2, h3]

theorem invalid_of_not_wellFormed (p : Parser β PB PPB) (r : SourceRef)
    (h : ¬ WellFormed p r) : invalidRef p r = true := by
  by_contra hc
  have hf : invalidRef p r = false := by simpa using hc
  exact h (wellFormed_of_not_invalid p r hf)

theorem decodeBuildConfig_diags_eq (p : Parser β PB PPB) (block : Block β) :
    (decodeBuildConfig p block).2 =
      attrDiags p block ++
        (if Diagnostics.HasErrors (attrDiags p block) then []
         else
          refDiags p block ++ schemaDiags p block ++
            (if Diagnostics.HasErrors
                (attrDiags p block ++ refDiags p block ++ schemaDiags p block) then []
             else dispatchDiags p (matchedBlocks p block))) := by
  cases h1 : Diagnostics.HasErrors (attrDiags p block) with
  | true =>
    rw [decodeBuildConfig_of_attr_error p block h1]
    simp
  | false =>
    cases h2 : Diagnostics.HasErrors
        (attrDiags p block ++ refDiags p block ++ schemaDiags p block) with
    | true =>
      rw [decodeBuildConfig_of_pre_error p block h1 h2]
      simp
    | false =>
      rw [decodeBuildConfig_of_ok p block h1 h2]
      simp

/-! ## Properties of `decodeBuildConfig` -/

/-- C7: the diagnostics returned by `decodeBuildConfig` are the diagnostics of the stages
that ran, concatenated in stage order: the attribute-decode diagnostics; then, unless these
hold an error, one invalid-reference diagnostic per rejected shorthand entry followed by the
schema-match diagnostics; then, unless an error has been seen so far, the delegate
diagnostics of every matched block in authored order, skipped items included. -/
theorem decodeBuildConfig_diags_in_stage_order (p : Parser β PB PPB) (block : Block β) :
    (decodeBuildConfig p block).2 =
        attrDiags p block ++
          (if Diagnostics.HasErrors (attrDiags p block) then []
           else
            refDiags p block ++ schemaDiags p block ++
              (if Diagnostics.HasErrors
                  (attrDiags p block ++ refDiags p block ++ schemaDiags p block) then []
               else dispatchDiags p (matchedBlocks p block))) ∧
      refDiags p block =
        (invalidEntries p (decoded p block).FromSources).map
          (fun _ => invalidSourceDiag block.DefRange) := by
  exact ⟨decodeBuildConfig_diags_eq p block, refDiags_eq p block⟩

/-- C4: when the attribute decode yields an error diagnostic, `decodeBuildConfig` returns
nil and exactly the attribute-decode diagnostics, and this result does not depend on the
identifier validator, the shorthand parser, the schema match or any delegate. -/
theorem decodeBuildConfig_attr_error_fatal (p : Parser β PB PPB) (block : Block β)
    (h : ∃ d ∈ attrDiags p block, d.Severity = DiagnosticSeverity.DiagError) :
    decodeBuildConfig p block = (none, attrDiags p block) ∧
      ∀ q : Parser β PB PPB, q.DecodeBody block.Body = p.DecodeBody block.Body →
        decodeBuildConfig q block = (none, attrDiags p block) := by
  have he : Diagnostics.HasErrors (attrDiags p block) = true := (hasErrors_iff _).2 h
  refine ⟨by rw [decodeBuildConfig_eq]; simp [he], ?_⟩
  intro q hq
  have hqa : attrDiags q block = attrDiags p block := by simp [attrDiags, hq]
  rw [decodeBuildConfig_eq, hqa]
  simp [he]

/-- Witness of C4 on a build block whose `name` holds a non-string value. -/
theorem decodeBuildConfig_attr_error_fatal_witness :
    (∃ d ∈ attrDiags exampleParser badNameBuild, d.Severity = DiagnosticSeverity.DiagError) ∧
      decodeBuildConfig exampleParser badNameBuild =
        (none, [exampleError "Incorrect attribute value type"]) :=
  ⟨by decide, (decodeBuildConfig_attr_error_fatal exampleParser badNameBuild (by decide)).1⟩

/-- C3: for a build block without malformed entries (no error from the attribute decode, the
schema match or any delegate, every shorthand entry accepted), `decodeBuildConfig` returns a
build whose `Sources` are the shorthand references in authored order followed by the
delegate results of the `source` blocks in authored order, whose `ProvisionerBlocks` and
`PostProcessors` are the delegate results of the `provisioner` and `post-processor` blocks
in authored order, and the returned diagnostics hold no error. -/
theorem decodeBuildConfig_no_malformed (p : Parser β PB PPB) (block : Block β)
    (hattr : Diagnostics.HasErrors (attrDiags p block) = false)
    (hschema : Diagnostics.HasErrors (schemaDiags p block) = false)
    (hrefs : ∀ s ∈ (decoded p block).FromSources,
      WellFormed p (p.sourceRefFromString s))
    (hdel : ∀ b ∈ matchedBlocks p block, Diagnostics.HasErrors (delegateDiags p b) = false) :
    ∃ build, (decodeBuildConfig p block).1 = some build ∧
      build.Name = (decoded p block).Name ∧
      build.Description = (decoded p block).Description ∧
      build.Sources =
        (decoded p block).FromSources.map p.sourceRefFromString ++
          ((matchedBlocks p block).filter (fun b => decide (b.Type_ = sourceLabel))).map
            (fun b => (p.decodeBuildSource b).1) ∧
      build.ProvisionerBlocks =
        ((matchedBlocks p block).filter (fun b => decide (b.Type_ = buildProvisionerLabel))).map
          (fun b => (p.decodeProvisioner b).1) ∧
      build.PostProcessors =
        ((matchedBlocks p block).filter
          (fun b => decide (b.Type_ = buildPostProcessorLabel))).map
          (fun b => (p.decodePostProcessor b).1) ∧
      build.Sources.length =
        (decoded p block).FromSources.length +
          ((matchedBlocks p block).filter (fun b => decide (b.Type_ = sourceLabel))).length ∧
      build.ProvisionerBlocks.length =
        ((matchedBlocks p block).filter
          (fun b => decide (b.Type_ = buildProvisionerLabel))).length ∧
      build.PostProcessors.length =
        ((matchedBlocks p block).filter
          (fun b => decide (b.Type_ = buildPostProcessorLabel))).length ∧
      Diagnostics.HasErrors (decodeBuildConfig p block).2 = false := by
  have hinv : ∀ s ∈ (decoded p block).FromSources,
      invalidRef p (p.sourceRefFromString s) = false := by
    intro s hs
    obtain ⟨h1, h2, h3⟩ := hrefs s hs
    simp [invalidRef, h1, h2, h3]
  have hnil := refDiags_eq_nil p block hinv
  have hpre : Diagnostics.HasErrors
      (attrDiags p block ++ refDiags p block ++ schemaDiags p block) = false := by
    rw [hasErrors_append, hasErrors_append, hattr, hschema, hnil]
    rfl
  have hdd := dispatchDiags_hasErrors_false p _ hdel
  rw [decodeBuildConfig_eq]
  simp only [hattr, hpre, Bool.false_eq_true, if_false]
  refine ⟨_, rfl, rfl, rfl, ?_, ?_, ?_, ?_, ?_, ?_, ?_⟩
  · simp only [shorthandRefs_of_valid p _ hinv, sourceResults_of_ok p _ hdel]
  · simp only [provisionerResults_of_ok p _ hdel]
  · simp only [postProcessorResults_of_ok p _ hdel]
  · simp only [shorthandRefs_of_valid p _ hinv, sourceResults_of_ok p _ hdel,
      List.length_append, List.length_map]
  · simp only [provisionerResults_of_ok p _ hdel, List.length_map]
  · simp only [postProcessorResults_of_ok p _ hdel, List.length_map]
  · rw [hasErrors_append, hpre, hdd]
    rfl

/-- Witness of C3 on a build block with two shorthand entries, one `source` block, two
`provisioner` blocks and one `post-processor` block. -/
theorem decodeBuildConfig_no_malformed_witness :
    ∃ build, (decodeBuildConfig exampleParser goodBuild).1 = some build ∧
      build.Name = "web" ∧
      build.Description = "images" ∧
      build.Sources = [⟨"aws-ami", "web"⟩, ⟨"docker", "db"⟩, ⟨"null", "x"⟩] ∧
      build.ProvisionerBlocks = ["shell", "file"] ∧
      build.PostProcessors = ["manifest"] ∧
      build.Sources.length = 2 + 1 ∧
      build.ProvisionerBlocks.length = 2 ∧
      build.PostProcessors.length = 1 ∧
      Diagnostics.HasErrors (decodeBuildConfig exampleParser goodBuild).2 = false :=
  decodeBuildConfig_no_malformed exampleParser goodBuild (by decide) (by decide)
    (by decide) (by decide)

/-- C5: when the attribute decode, the shorthand validation and the schema match report no
error, `decodeBuildConfig` returns a build; a delegate that reports an error causes only its
own block to be skipped: `ProvisionerBlocks`, `PostProcessors` and the block-derived part of
`Sources` are, in authored order, the delegate results of exactly the blocks whose delegate
diagnostics hold no error, the delegate diagnostics of every matched block are returned, and
the lists are those of the block list without the failing block. -/
theorem decodeBuildConfig_delegate_error_skips_block (p : Parser β PB PPB) (block : Block β)
    (hattr : Diagnostics.HasErrors (attrDiags p block) = false)
    (href : Diagnostics.HasErrors (refDiags p block) = false)
    (hschema : Diagnostics.HasErrors (schemaDiags p block) = false) :
    ∃ build, (decodeBuildConfig p block).1 = some build ∧
      build.Sources =
        (decoded p block).FromSources.map p.sourceRefFromString ++
          sourceResults p (matchedBlocks p block) ∧
      build.ProvisionerBlocks = provisionerResults p (matchedBlocks p block) ∧
      build.PostProcessors = postProcessorResults p (matchedBlocks p block) ∧
      (decodeBuildConfig p block).2 =
        attrDiags p block ++ refDiags p block ++ schemaDiags p block ++
          dispatchDiags p (matchedBlocks p block) ∧
      ∀ l1 b l2, matchedBlocks p block = l1 ++ b :: l2 →
        Diagnostics.HasErrors (delegateDiags p b) = true →
          build.Sources =
            (decoded p block).FromSources.map p.sourceRefFromString ++
              (sourceResults p l1 ++ sourceResults p l2) ∧
          build.ProvisionerBlocks = provisionerResults p l1 ++ provisionerResults p l2 ∧
          build.PostProcessors = postProcessorResults p l1 ++ postProcessorResults p l2 := by
  have hinv := invalid_none_of_refDiags_ok p block href
  have hpre : Diagnostics.HasErrors
      (attrDiags p block ++ refDiags p block ++ schemaDiags p block) = false := by
    rw [hasErrors_append, hasErrors_append, hattr, hschema, href]
    rfl
  rw [decodeBuildConfig_of_ok p block hattr hpre]
  refine ⟨_, rfl, ?_, rfl, rfl, rfl, ?_⟩
  · simp only [shorthandRefs_of_valid p _ hinv]
  · intro l1 b l2 hm hb
    obtain ⟨r1, r2, r3⟩ := results_remove p l1 l2 b (Or.inr hb)
    simp only [shorthandRefs_of_valid p _ hinv, hm, r1, r2, r3, sourceResults_append,
      provisionerResults_append, postProcessorResults_append, and_self]

/-- Witness of C5 on a build block in which the delegates of the first `provisioner` block
and of the `source` block fail: the later blocks are still decoded. -/
theorem decodeBuildConfig_delegate_error_skips_block_witness :
    ∃ build, (decodeBuildConfig exampleParser failingDelegateBuild).1 = some build ∧
      build.Sources = [⟨"docker", "db"⟩] ++ [] ∧
      build.ProvisionerBlocks = ["shell"] ∧
      build.PostProcessors = ["manifest"] ∧
      (decodeBuildConfig exampleParser failingDelegateBuild).2 =
        [exampleError "Unknown provisioner type", exampleError "Unknown source"] ∧
      ∀ l1 b l2, matchedBlocks exampleParser failingDelegateBuild = l1 ++ b :: l2 →
        Diagnostics.HasErrors (delegateDiags exampleParser b) = true →
          build.Sources =
            (decoded exampleParser failingDelegateBuild).FromSources.map
                exampleParser.sourceRefFromString ++
              (sourceResults exampleParser l1 ++ sourceResults exampleParser l2) ∧
          build.ProvisionerBlocks =
            provisionerResults exampleParser l1 ++ provisionerResults exampleParser l2 ∧
          build.PostProcessors =
            postProcessorResults exampleParser l1 ++ postProcessorResults exampleParser l2 :=
  decodeBuildConfig_delegate_error_skips_block exampleParser failingDelegateBuild
    (by decide) (by decide) (by decide)

/-- C8: a matched block whose type is `from`, or any type other than `source`, `provisioner`
and `post-processor`, is a no-op of the dispatch loop: the iteration leaves the build and the
diagnostics as they are whatever the delegates do, the block has no delegate diagnostics,
and the loop and the decoder return what they return for the block list without it. -/
theorem dispatch_other_type_noop (p : Parser β PB PPB) (b : Block β)
    (h : b.Type_ = buildFromLabel ∨
      (b.Type_ ≠ sourceLabel ∧ b.Type_ ≠ buildProvisionerLabel ∧
        b.Type_ ≠ buildPostProcessorLabel)) :
    (∀ st, dispatchStep p st b = st) ∧
      delegateDiags p b = [] ∧
      (∀ st l1 l2, dispatchLoop p st (l1 ++ b :: l2) = dispatchLoop p st (l1 ++ l2)) ∧
      ∀ block l1 l2, matchedBlocks p block = l1 ++ b :: l2 →
        decodeBuildConfig (withMatchedBlocks p (l1 ++ l2)) block = decodeBuildConfig p block := by
  have hne : b.Type_ ≠ sourceLabel ∧ b.Type_ ≠ buildProvisionerLabel ∧
      b.Type_ ≠ buildPostProcessorLabel := by
    rcases h with h | h
    · rw [h]
      exact from_not_dispatched
    · exact h
  obtain ⟨h1, h2, h3⟩ := hne
  have hstep : ∀ st, dispatchStep p st b = st := by
    intro st
    simp [dispatchStep, h1, h2, h3]
  have hdiag : delegateDiags p b = [] := by simp [delegateDiags, h1, h2, h3]
  refine ⟨hstep, hdiag, ?_, ?_⟩
  · intro st l1 l2
    simp [dispatchLoop, List.foldl_append, hstep]
  · intro block l1 l2 hm
    obtain ⟨r1, r2, r3⟩ := results_remove p l1 l2 b (Or.inl ⟨h1, h2, h3⟩)
    have hd : dispatchDiags p (l1 ++ b :: l2) = dispatchDiags p (l1 ++ l2) := by
      have hsplit : l1 ++ b :: l2 = l1 ++ ([b] ++ l2) := rfl
      rw [hsplit]
      simp [dispatchDiags_append, dispatchDiags, hdiag]
    obtain ⟨q1, q2, q3, q4, q5, q6, q7, q8, q9, q10⟩ :=
      withMatchedBlocks_eq p (l1 ++ l2) block
    rw [decodeBuildConfig_eq, decodeBuildConfig_eq p, hm, r1, r2, r3, hd, q1, q2, q3, q4, q5,
      q6, q7, q8, q9, q10]

/-- Witness of C8 on the `from` block of a concrete build block. -/
theorem dispatch_other_type_noop_witness :
    (∀ st, dispatchStep exampleParser st (exampleBlock 2 "from" ["x"]) = st) ∧
      delegateDiags exampleParser (exampleBlock 2 "from" ["x"]) = [] ∧
      (∀ st l1 l2, dispatchLoop exampleParser st (l1 ++ exampleBlock 2 "from" ["x"] :: l2) =
        dispatchLoop exampleParser st (l1 ++ l2)) ∧
      ∀ block l1 l2,
        matchedBlocks exampleParser block = l1 ++ exampleBlock 2 "from" ["x"] :: l2 →
          decodeBuildConfig (withMatchedBlocks exampleParser (l1 ++ l2)) block =
            decodeBuildConfig exampleParser block :=
  dispatch_other_type_noop exampleParser (exampleBlock 2 "from" ["x"]) (Or.inl rfl)

/-- C6: when the attribute decode succeeds, the returned diagnostics hold, right after the
attribute-decode diagnostics, the diagnostics of the shorthand loop: exactly one
"Invalid source reference" diagnostic for each rejected entry of the shorthand list, counted
with multiplicity, and none for an accepted entry; each has error severity and the `DefRange`
of the build block as subject. When no other stage emits a diagnostic of that summary, the
number of such diagnostics in the whole returned list is the number of rejected entries. -/
theorem decodeBuildConfig_invalid_reference_diags (p : Parser β PB PPB) (block : Block β)
    (hattr : Diagnostics.HasErrors (attrDiags p block) = false) :
    (decodeBuildConfig p block).2 =
        attrDiags p block ++ refDiags p block ++
          (schemaDiags p block ++
            (if Diagnostics.HasErrors
                (attrDiags p block ++ refDiags p block ++ schemaDiags p block) then []
             else dispatchDiags p (matchedBlocks p block))) ∧
      refDiags p block =
        ((decoded p block).FromSources.map (fun s =>
          if invalidRef p (p.sourceRefFromString s) then [invalidSourceDiag block.DefRange]
          else [])).flatten ∧
      (refDiags p block).length =
        (decoded p block).FromSources.countP
          (fun s => invalidRef p (p.sourceRefFromString s)) ∧
      (∀ d ∈ refDiags p block,
        d.Severity = DiagnosticSeverity.DiagError ∧ d.Summary = "Invalid source reference" ∧
          d.Subject = some block.DefRange) ∧
      ((∀ d ∈ attrDiags p block ++ schemaDiags p block ++
            dispatchDiags p (matchedBlocks p block),
          d.Summary ≠ "Invalid source reference") →
        (decodeBuildConfig p block).2.countP
            (fun d => decide (d.Summary = "Invalid source reference")) =
          (decoded p block).FromSources.countP
            (fun s => invalidRef p (p.sourceRefFromString s))) := by
  have hlen : (refDiags p block).length =
      (decoded p block).FromSources.countP
        (fun s => invalidRef p (p.sourceRefFromString s)) := by
    rw [refDiags_eq, List.length_map, invalidEntries, List.countP_eq_length_filter]
  have hdiags := decodeBuildConfig_diags_eq p block
  simp only [hattr, Bool.false_eq_true, if_false] at hdiags
  have hsum := invalidSourceDiag_summary block.DefRange
  refine ⟨?_, ?_, hlen, ?_, ?_⟩
  · rw [hdiags]
    simp only [List.append_assoc]
  · rw [refDiags_eq, refDiags_eq_flatten]
  · intro d hd
    rw [refDiags_eq] at hd
    obtain ⟨s, -, rfl⟩ := List.mem_map.1 hd
    exact ⟨rfl, hsum, rfl⟩
  · intro hother
    have hc := countP_summary_refDiags p block
    rw [hsum] at hc
    have ha : (attrDiags p block).countP
        (fun d => decide (d.Summary = "Invalid source reference")) = 0 :=
      countP_eq_zero_of_forall_ne _ _ (fun d hd => hother d (by simp [hd]))
    have hs : (schemaDiags p block).countP
        (fun d => decide (d.Summary = "Invalid source reference")) = 0 :=
      countP_eq_zero_of_forall_ne _ _ (fun d hd => hother d (by simp [hd]))
    have hdd : (dispatchDiags p (matchedBlocks p block)).countP
        (fun d => decide (d.Summary = "Invalid source reference")) = 0 :=
      countP_eq_zero_of_forall_ne _ _ (fun d hd => hother d (by simp [hd]))
    rw [hdiags, ← hlen, ← hc]
    cases hpre : Diagnostics.HasErrors
        (attrDiags p block ++ refDiags p block ++ schemaDiags p block) with
    | true =>
      simp only [if_true, List.countP_append, ha, hs, List.append_nil, List.countP_nil,
        Nat.zero_add, Nat.add_zero]
    | false =>
      simp only [Bool.false_eq_true, if_false, List.countP_append, ha, hs, hdd, Nat.zero_add,
        Nat.add_zero]

/-- Witness of C6 on a build block with one rejected shorthand entry among three. -/
theorem decodeBuildConfig_invalid_reference_diags_witness :
    Diagnostics.HasErrors (attrDiags exampleParser oneBadSourceBuild) = false ∧
      refDiags exampleParser oneBadSourceBuild = [invalidSourceDiag (exampleRange 1)] ∧
      (decodeBuildConfig exampleParser oneBadSourceBuild).2.countP
          (fun d => decide (d.Summary = "Invalid source reference")) = 1 :=
  ⟨by decide, rfl,
    (decodeBuildConfig_invalid_reference_diags exampleParser oneBadSourceBuild
      (by decide)).2.2.2.2 (by decide)⟩

/-- C9: in every build returned by `decodeBuildConfig`, `Sources` starts with the references
of the shorthand entries, each of which differs from `NoSource` and has a type and a name
accepted by the identifier validator; the rest of `Sources` comes from the nested `source`
blocks, so without such blocks every element of `Sources` has these properties. -/
theorem decodeBuildConfig_shorthand_sources_wellFormed (p : Parser β PB PPB)
    (block : Block β) (build : BuildBlock PB PPB)
    (h : (decodeBuildConfig p block).1 = some build) :
    build.Sources =
        (decoded p block).FromSources.map p.sourceRefFromString ++
          sourceResults p (matchedBlocks p block) ∧
      (∀ r ∈ (decoded p block).FromSources.map p.sourceRefFromString, WellFormed p r) ∧
      ((∀ b ∈ matchedBlocks p block, b.Type_ ≠ sourceLabel) →
        ∀ r ∈ build.Sources, WellFormed p r) := by
  obtain ⟨hattr, href, hschema⟩ := decodeBuildConfig_some_stages_ok p block build h
  have hinv := invalid_none_of_refDiags_ok p block href
  have hpre : Diagnostics.HasErrors
      (attrDiags p block ++ refDiags p block ++ schemaDiags p block) = false := by
    rw [hasErrors_append, hasErrors_append, hattr, hschema, href]
    rfl
  rw [decodeBuildConfig_of_ok p block hattr hpre] at h
  have hb : build = _ := (Option.some.inj h).symm
  have hwf : ∀ r ∈ (decoded p block).FromSources.map p.sourceRefFromString,
      WellFormed p r := by
    intro r hr
    obtain ⟨s, hs, rfl⟩ := List.mem_map.1 hr
    exact wellFormed_of_not_invalid p _ (hinv s hs)
  have hsrc : build.Sources =
      (decoded p block).FromSources.map p.sourceRefFromString ++
        sourceResults p (matchedBlocks p block) := by
    rw [hb]
    simp only [shorthandRefs_of_valid p _ hinv]
  refine ⟨hsrc, hwf, ?_⟩
  intro hno r hr
  have hnil : sourceResults p (matchedBlocks p block) = [] := by
    unfold sourceResults
    have : (matchedBlocks p block).filter (fun b => decide (b.Type_ = sourceLabel)) = [] := by
      rw [List.filter_eq_nil_iff]
      intro b hb
      simpa using hno b hb
    rw [this]
    rfl
  rw [hsrc, hnil, List.append_nil] at hr
  exact hwf r hr

/-- Witness of C9 on a build block with two shorthand entries and one `source` block. -/
theorem decodeBuildConfig_shorthand_sources_wellFormed_witness :
    ((decodeBuildConfig exampleParser goodBuild).1.map (fun build => build.Sources) =
        some [⟨"aws-ami", "web"⟩, ⟨"docker", "db"⟩, ⟨"null", "x"⟩]) ∧
      ∀ r ∈ (decoded exampleParser goodBuild).FromSources.map
          exampleParser.sourceRefFromString, WellFormed exampleParser r :=
  ⟨by decide,
    (decodeBuildConfig_shorthand_sources_wellFormed exampleParser goodBuild
      { Name := "web", Description := "images",
        Sources := [⟨"aws-ami", "web"⟩, ⟨"docker", "db"⟩, ⟨"null", "x"⟩],
        ProvisionerBlocks := ["shell", "file"], PostProcessors := ["manifest"],
        HCL2Ref := () } rfl).2.1⟩

/-- C10: `decodeBuildConfig` returns nil if and only if the attribute-decode diagnostics
hold an error, or some shorthand entry is rejected, or the schema-match diagnostics hold an
error; whether the result is nil does not depend on the delegates; and when a build is
returned, every returned diagnostic of error severity is a delegate diagnostic of some
matched block. -/
theorem decodeBuildConfig_nil_iff (p : Parser β PB PPB) (block : Block β) :
    ((decodeBuildConfig p block).1 = none ↔
        (Diagnostics.HasErrors (attrDiags p block) = true ∨
          (∃ s ∈ (decoded p block).FromSources, ¬ WellFormed p (p.sourceRefFromString s)) ∨
          Diagnostics.HasErrors (schemaDiags p block) = true)) ∧
      (∀ (f : Block β → SourceRef × Diagnostics) (g : Block β → PB × Diagnostics)
          (k : Block β → PPB × Diagnostics),
        (decodeBuildConfig
            { p with decodeBuildSource := f, decodeProvisioner := g,
                     decodePostProcessor := k } block).1 = none ↔
          (decodeBuildConfig p block).1 = none) ∧
      ∀ build, (decodeBuildConfig p block).1 = some build →
        ∀ d ∈ (decodeBuildConfig p block).2, d.Severity = DiagnosticSeverity.DiagError →
          ∃ b ∈ matchedBlocks p block, d ∈ delegateDiags p b := by
  have key : ∀ q : Parser β PB PPB,
      ((decodeBuildConfig q block).1 = none ↔
        (Diagnostics.HasErrors (attrDiags q block) = true ∨
          (∃ s ∈ (decoded q block).FromSources, ¬ WellFormed q (q.sourceRefFromString s)) ∨
          Diagnostics.HasErrors (schemaDiags q block) = true)) := by
    intro q
    have hex : (∃ s ∈ (decoded q block).FromSources,
        ¬ WellFormed q (q.sourceRefFromString s)) ↔
        Diagnostics.HasErrors (refDiags q block) = true := by
      rw [refDiags_hasErrors_iff]
      constructor
      · rintro ⟨s, hs, hw⟩
        exact ⟨s, hs, invalid_of_not_wellFormed q _ hw⟩
      · rintro ⟨s, hs, hi⟩
        refine ⟨s, hs, fun hw => ?_⟩
        have := invalid_of_wellFormed q [s] (by simpa using hw) s (by simp)
        rw [hi] at this
        exact Bool.noConfusion this
    rw [hex]
    cases hattr : Diagnostics.HasErrors (attrDiags q block) with
    | true =>
      rw [decodeBuildConfig_of_attr_error q block hattr]
      simp
    | false =>
      cases hpre : Diagnostics.HasErrors
          (attrDiags q block ++ refDiags q block ++ schemaDiags q block) with
      | true =>
        rw [decodeBuildConfig_of_pre_error q block hattr hpre]
        rw [hasErrors_append, hasErrors_append, hattr] at hpre
        simpa using hpre
      | false =>
        rw [decodeBuildConfig_of_ok q block hattr hpre]
        rw [hasErrors_append, hasErrors_append, hattr] at hpre
        simp only [Bool.false_or, Bool.or_eq_false_iff] at hpre
        simp [hpre.1, hpre.2]
  refine ⟨key p, ?_, ?_⟩
  · intro f g k
    rw [key p, key]
    exact Iff.rfl
  · intro build h d hd hsev
    obtain ⟨hattr, href, hschema⟩ := decodeBuildConfig_some_stages_ok p block build h
    have hpre : Diagnostics.HasErrors
        (attrDiags p block ++ refDiags p block ++ schemaDiags p block) = false := by
      rw [hasErrors_append, hasErrors_append, hattr, hschema, href]
      rfl
    rw [decodeBuildConfig_of_ok p block hattr hpre] at hd
    rcases List.mem_append.1 hd with hd1 | hd2
    · exact absurd hsev ((hasErrors_eq_false_iff _).1 hpre d hd1)
    · exact (delegateDiags_mem_dispatchDiags p _ d).1 hd2

/-- Counterexample to C1: a build block with one rejected shorthand entry among accepted
ones, a clean schema match and clean delegates; the decoder returns nil. -/
theorem one_invalid_shorthand_returns_nil :
    Diagnostics.HasErrors (attrDiags exampleParser oneBadSourceBuild) = false ∧
      (decoded exampleParser oneBadSourceBuild).FromSources =
        ["source.aws-ami.web"] ++ "bad type.name" :: ["docker.db"] ∧
      ¬ WellFormed exampleParser (exampleParser.sourceRefFromString "bad type.name") ∧
      (∀ t ∈ ["source.aws-ami.web"] ++ ["docker.db"],
        WellFormed exampleParser (exampleParser.sourceRefFromString t)) ∧
      schemaDiags exampleParser oneBadSourceBuild = [] ∧
      (∀ b ∈ matchedBlocks exampleParser oneBadSourceBuild,
        delegateDiags exampleParser b = []) ∧
      (decodeBuildConfig exampleParser oneBadSourceBuild).1 = none :=
  ⟨by decide, rfl, by decide, by decide, by decide, by decide, rfl⟩

/-- C1, amended: when the attribute decode succeeds, exactly one shorthand entry is rejected
among accepted ones and the schema match reports no error, `decodeBuildConfig` returns nil
together with the attribute-decode diagnostics, one invalid-reference diagnostic and the
schema-match diagnostics; exactly one returned diagnostic has error severity, and its subject
is the `DefRange` of the build block. -/
theorem decodeBuildConfig_one_invalid_shorthand (p : Parser β PB PPB) (block : Block β)
    (l1 l2 : List String) (s : String)
    (hattr : Diagnostics.HasErrors (attrDiags p block) = false)
    (hsplit : (decoded p block).FromSources = l1 ++ s :: l2)
    (hbad : ¬ WellFormed p (p.sourceRefFromString s))
    (hgood : ∀ t ∈ l1 ++ l2, WellFormed p (p.sourceRefFromString t))
    (hschema : Diagnostics.HasErrors (schemaDiags p block) = false) :
    decodeBuildConfig p block =
        (none, attrDiags p block ++ [invalidSourceDiag block.DefRange] ++
          schemaDiags p block) ∧
      (decodeBuildConfig p block).2.filter
          (fun d => decide (d.Severity = DiagnosticSeverity.DiagError)) =
        [invalidSourceDiag block.DefRange] ∧
      (invalidSourceDiag block.DefRange).Subject = some block.DefRange := by
  have hinv := invalid_of_wellFormed p (l1 ++ l2) hgood
  have h1 : invalidEntries p l1 = [] :=
    (invalidEntries_eq_nil_iff p l1).2 (fun t ht => hinv t (by simp [ht]))
  have h2 : invalidEntries p l2 = [] :=
    (invalidEntries_eq_nil_iff p l2).2 (fun t ht => hinv t (by simp [ht]))
  have hs := invalid_of_not_wellFormed p _ hbad
  have hent : invalidEntries p (l1 ++ s :: l2) = [s] := by
    unfold invalidEntries at h1 h2 ⊢
    rw [List.filter_append, List.filter_cons, h1, h2]
    simp [hs]
  have href : refDiags p block = [invalidSourceDiag block.DefRange] := by
    rw [refDiags_eq, hsplit, hent]
    rfl
  have hpre : Diagnostics.HasErrors
      (attrDiags p block ++ refDiags p block ++ schemaDiags p block) = true := by
    rw [hasErrors_append, hasErrors_append, hattr, hschema, href]
    rfl
  have hres := decodeBuildConfig_of_pre_error p block hattr hpre
  rw [href] at hres
  refine ⟨hres, ?_, rfl⟩
  rw [hres]
  show List.filter _ (attrDiags p block ++ [invalidSourceDiag block.DefRange] ++
    schemaDiags p block) = _
  rw [List.filter_append, List.filter_append, filter_errors_eq_nil _ hattr,
    filter_errors_eq_nil _ hschema]
  rfl

/-- Witness of the amended C1 on a build block with one rejected entry among three. -/
theorem decodeBuildConfig_one_invalid_shorthand_witness :
    decodeBuildConfig exampleParser oneBadSourceBuild =
        (none, attrDiags exampleParser oneBadSourceBuild ++
          [invalidSourceDiag oneBadSourceBuild.DefRange] ++
          schemaDiags exampleParser oneBadSourceBuild) ∧
      (decodeBuildConfig exampleParser oneBadSourceBuild).2.filter
          (fun d => decide (d.Severity = DiagnosticSeverity.DiagError)) =
        [invalidSourceDiag oneBadSourceBuild.DefRange] ∧
      (invalidSourceDiag oneBadSourceBuild.DefRange).Subject =
        some oneBadSourceBuild.DefRange :=
  decodeBuildConfig_one_invalid_shorthand exampleParser oneBadSourceBuild
    ["source.aws-ami.web"] ["docker.db"] "bad type.name" (by decide) rfl (by decide)
    (by decide) (by decide)

/-- Counterexample to C2: a build block, valid otherwise, with a nested block of a type
outside the schema; the schema match flags it with an error and the decoder returns nil. -/
theorem unknown_block_returns_nil :
    Diagnostics.HasErrors (attrDiags exampleParser unknownBlockBuild) = false ∧
      (∀ s ∈ (decoded exampleParser unknownBlockBuild).FromSources,
        WellFormed exampleParser (exampleParser.sourceRefFromString s)) ∧
      (∀ b ∈ matchedBlocks exampleParser unknownBlockBuild,
        delegateDiags exampleParser b = []) ∧
      "unknown" ∉ schemaTypes ∧
      schemaDiags exampleParser unknownBlockBuild = [exampleError "Unsupported block type"] ∧
      (decodeBuildConfig exampleParser unknownBlockBuild).1 = none :=
  ⟨by decide, by decide, by decide, by decide, by decide, rfl⟩

/-- C2, amended: when the attribute decode succeeds, every shorthand entry is accepted and
the schema match emits a diagnostic for a nested block, that diagnostic is returned; the
result is nil exactly when the schema-match diagnostics hold an error; and when a build is
returned, its three lists are those of the matched blocks with every block of a type outside
the schema removed, so such a block adds no element. -/
theorem decodeBuildConfig_unknown_block (p : Parser β PB PPB) (block : Block β)
    (d : Diagnostic)
    (hattr : Diagnostics.HasErrors (attrDiags p block) = false)
    (hrefs : ∀ s ∈ (decoded p block).FromSources, WellFormed p (p.sourceRefFromString s))
    (hd : d ∈ schemaDiags p block) :
    d ∈ (decodeBuildConfig p block).2 ∧
      ((decodeBuildConfig p block).1 = none ↔
        Diagnostics.HasErrors (schemaDiags p block) = true) ∧
      ∀ build, (decodeBuildConfig p block).1 = some build →
        ∀ t, t ∉ schemaTypes →
          build.Sources =
            (decoded p block).FromSources.map p.sourceRefFromString ++
              sourceResults p
                ((matchedBlocks p block).filter (fun b => decide (b.Type_ ≠ t))) ∧
          build.ProvisionerBlocks =
            provisionerResults p
              ((matchedBlocks p block).filter (fun b => decide (b.Type_ ≠ t))) ∧
          build.PostProcessors =
            postProcessorResults p
              ((matchedBlocks p block).filter (fun b => decide (b.Type_ ≠ t))) := by
  have hinv := invalid_of_wellFormed p _ hrefs
  have hnil := refDiags_eq_nil p block hinv
  have hpreEq : Diagnostics.HasErrors
      (attrDiags p block ++ refDiags p block ++ schemaDiags p block) =
      Diagnostics.HasErrors (schemaDiags p block) := by
    rw [hasErrors_append, hasErrors_append, hattr, hnil]
    rfl
  cases hschema : Diagnostics.HasErrors (schemaDiags p block) with
  | true =>
    have hres := decodeBuildConfig_of_pre_error p block hattr (hpreEq.trans hschema)
    rw [hres]
    refine ⟨by simp [hd], by simp, ?_⟩
    intro build hb
    exact absurd hb (by simp)
  | false =>
    have hres := decodeBuildConfig_of_ok p block hattr (hpreEq.trans hschema)
    rw [hres]
    refine ⟨by simp [hd], by simp, ?_⟩
    intro build hb t ht
    have hbe : build = _ := (Option.some.inj hb).symm
    obtain ⟨r1, r2, r3⟩ := results_filter_unknown p (matchedBlocks p block) t ht
    rw [hbe, r1, r2, r3]
    simp only [shorthandRefs_of_valid p _ hinv, and_self]

/-- Witness of the amended C2 on a build block with a nested block of type `unknown`. -/
theorem decodeBuildConfig_unknown_block_witness :
    exampleError "Unsupported block type" ∈
        (decodeBuildConfig exampleParser unknownBlockBuild).2 ∧
      ((decodeBuildConfig exampleParser unknownBlockBuild).1 = none ↔
        Diagnostics.HasErrors (schemaDiags exampleParser unknownBlockBuild) = true) :=
  ⟨(decodeBuildConfig_unknown_block exampleParser unknownBlockBuild
      (exampleError "Unsupported block type") (by decide) (by decide) (by decide)).1,
    (decodeBuildConfig_unknown_block exampleParser unknownBlockBuild
      (exampleError "Unsupported block type") (by decide) (by decide) (by decide)).2.1⟩

end Decoder

end Hcl2template
